import Mathlib

/-
Verification of the transfer-scheduling and resource-allocation engine of the
opentrons-parameters repository, shallowly embedded from the Python sources:
Flex_Cherrypicking_Every_Run_Parameters.py (table validation, labware loading,
tip lifecycle, transfer loop), OT2_LiquidExample.py (destination registry), and
complex/plate_map_volumes_no_header.py (well-id handling).
-/

namespace OpentronsParams

/-! ## Python string primitives used by the engine -/

/-- Model of Python str.upper restricted to ASCII letters (the only characters the
well identifiers in this repository contain): a lowercase ASCII letter moves 32
code points down, every other character is unchanged. This embeds the expression
well_id.upper() used by Plate.get_well and Plate.set_well_volume in
complex/plate_map_volumes_no_header.py. -/
def pyUpperChar (c : Char) : Char :=
  if 97 ≤ c.toNat ∧ c.toNat ≤ 122 then Char.ofNat (c.toNat - 32) else c

/-- Characterwise extension of pyUpperChar to strings, the model of
Python well_id.upper(). -/
def pyUpper (s : String) : String := String.mk (s.data.map pyUpperChar)

/-- Model of the Python test value.strip() == "" used by validate_data_rows:
true exactly when every character of the string is whitespace. -/
def isBlank (s : String) : Bool := s.data.all Char.isWhitespace

/-- Numeric value of a list of ASCII digit characters, most significant first. -/
def digitsVal (l : List Char) : Nat := l.foldl (fun n c => 10 * n + (c.toNat - 48)) 0

/-- Model of Python float() on plain decimal literals, the only numeric formats
the repository's CSV tables carry: optional surrounding whitespace, an optional
sign, then integer digits with an optional fractional part, at least one digit in
total. Any other string raises ValueError in Python, modelled here as none. The
value is kept exact as a rational. -/
def parsePyFloat (s : String) : Option ℚ :=
  let t := ((s.data.dropWhile Char.isWhitespace).reverse.dropWhile Char.isWhitespace).reverse
  let signed : ℚ × List Char :=
    match t with
    | '-' :: r => (-1, r)
    | '+' :: r => (1, r)
    | r => (1, r)
  let intPart := signed.2.takeWhile Char.isDigit
  let rest := signed.2.dropWhile Char.isDigit
  match rest with
  | [] => if intPart.isEmpty then none else some (signed.1 * digitsVal intPart)
  | '.' :: frac =>
    if frac.all Char.isDigit && !(intPart.isEmpty && frac.isEmpty) then
      some (signed.1 * ((digitsVal intPart : ℚ) + (digitsVal frac : ℚ) / (10 ^ frac.length)))
    else none
  | _ => none

lemma toNat_ofNat_of_valid (n : Nat) (h : n < 55296) : (Char.ofNat n).toNat = n := by
  have hv : n.isValidChar := Or.inl h
  simp [Char.ofNat, dif_pos hv, Char.ofNatAux, Char.toNat, UInt32.toNat, BitVec.toNat_ofNatLt]

lemma pyUpperChar_idem (c : Char) : pyUpperChar (pyUpperChar c) = pyUpperChar c := by
  unfold pyUpperChar
  by_cases h : 97 ≤ c.toNat ∧ c.toNat ≤ 122
  · rw [if_pos h]
    have ht : (Char.ofNat (c.toNat - 32)).toNat = c.toNat - 32 :=
      toNat_ofNat_of_valid _ (by omega)
    rw [if_neg]
    rw [ht]; omega
  · rw [if_neg h, if_neg h]

lemma pyUpper_idem (s : String) : pyUpper (pyUpper s) = pyUpper s := by
  have hf : pyUpperChar ∘ pyUpperChar = pyUpperChar := funext pyUpperChar_idem
  simp [pyUpper, List.map_map, hf]

/-! ## Data model (Flex_Cherrypicking_Every_Run_Parameters.py) -/

/-- Expected CSV header row (HEADERS in Flex_Cherrypicking_Every_Run_Parameters.py). -/
def HEADERS : List String :=
  ["source_labware", "source_slot", "source_well", "source_height_above_bottom_mm",
   "destination_labware", "destination_slot", "destination_well", "volume_μl"]

/-- One row of CSV data (dataclass Transfer). Numeric fields are kept exact as
rationals standing for the Python floats the code produces from decimal text. -/
structure Transfer where
  source_labware : String
  source_slot : String
  source_well : String
  source_height_above_bottom_mm : ℚ
  destination_labware : String
  destination_slot : String
  destination_well : String
  volume_ul : ℚ
deriving DecidableEq

/-- Frozen dataclass LabwareSlot: a (labware, slot) pair with structural equality
and hashing, used as a set element to deduplicate labware loads. -/
structure LabwareSlot where
  labware : String
  slot : String
deriving DecidableEq

/-- Embeds get_unique_labware_slots: one pass over the transfers, adding each
row's source pair and destination pair to a set. -/
def get_unique_labware_slots (transfers : List Transfer) : Finset LabwareSlot :=
  transfers.foldl
    (fun s t =>
      insert ⟨t.destination_labware, t.destination_slot⟩
        (insert ⟨t.source_labware, t.source_slot⟩ s))
    ∅

/-- Embeds the labware-loading loop of run (Flex lines 213-215): one load_labware
call per element of the unique set. Python set iteration order is unspecified, so
the bag of load_labware calls is modelled as the multiset underlying the set. -/
def run_labware_loads (transfers : List Transfer) : Multiset LabwareSlot :=
  (get_unique_labware_slots transfers).val

lemma mem_foldl_unique_slots (ts : List Transfer) (s0 : Finset LabwareSlot) (p : LabwareSlot) :
    p ∈ ts.foldl
        (fun s t =>
          insert ⟨t.destination_labware, t.destination_slot⟩
            (insert ⟨t.source_labware, t.source_slot⟩ s))
        s0 ↔
      p ∈ s0 ∨ ∃ t ∈ ts,
        p = (⟨t.source_labware, t.source_slot⟩ : LabwareSlot) ∨
        p = (⟨t.destination_labware, t.destination_slot⟩ : LabwareSlot) := by
  induction ts generalizing s0 with
  | nil => simp
  | cons t ts ih =>
    rw [List.foldl_cons, ih]
    simp only [Finset.mem_insert, List.mem_cons]
    constructor
    · rintro (h1 | ⟨u, hu, h⟩)
      · rcases h1 with h | h | h
        · exact Or.inr ⟨t, Or.inl rfl, Or.inr h⟩
        · exact Or.inr ⟨t, Or.inl rfl, Or.inl h⟩
        · exact Or.inl h
      · exact Or.inr ⟨u, Or.inr hu, h⟩
    · rintro (h | ⟨u, hu | hu, h⟩)
      · exact Or.inl (Or.inr (Or.inr h))
      · subst hu
        rcases h with h | h
        · exact Or.inl (Or.inr (Or.inl h))
        · exact Or.inl (Or.inl h)
      · exact Or.inr ⟨u, hu, h⟩

lemma mem_get_unique_labware_slots (ts : List Transfer) (p : LabwareSlot) :
    p ∈ get_unique_labware_slots ts ↔
      ∃ t ∈ ts,
        p = (⟨t.source_labware, t.source_slot⟩ : LabwareSlot) ∨
        p = (⟨t.destination_labware, t.destination_slot⟩ : LabwareSlot) := by
  unfold get_unique_labware_slots
  rw [mem_foldl_unique_slots]
  simp

/-- C1: get_unique_labware_slots is exactly the deduplicated set of (labware,
slot) pairs occurring as a source or destination of some row, and the run's
labware-loading loop performs exactly one load_labware call per element of that
set (count 1 for members, 0 otherwise), however many rows repeat a pair. -/
theorem c1_unique_labware_loads (ts : List Transfer) :
    (∀ p : LabwareSlot,
      p ∈ get_unique_labware_slots ts ↔
        ∃ t ∈ ts,
          p = (⟨t.source_labware, t.source_slot⟩ : LabwareSlot) ∨
          p = (⟨t.destination_labware, t.destination_slot⟩ : LabwareSlot)) ∧
    (∀ p : LabwareSlot,
      (run_labware_loads ts).count p =
        if p ∈ get_unique_labware_slots ts then 1 else 0) := by
  refine ⟨fun p => mem_get_unique_labware_slots ts p, fun p => ?_⟩
  by_cases hp : p ∈ get_unique_labware_slots ts
  · rw [if_pos hp]
    exact Multiset.count_eq_one_of_mem (get_unique_labware_slots ts).nodup
      (Finset.mem_val.mpr hp)
  · rw [if_neg hp]
    exact Multiset.count_eq_zero.2 (fun hmem => hp (Finset.mem_val.mp hmem))

/-! ## Plate wells (complex/plate_map_volumes_no_header.py) -/

/-- Dataclass Well: row letter, column number, current volume. -/
structure Well where
  row : String
  column : Nat
  volume : ℚ
deriving DecidableEq

/-- ROWS of Plate.__post_init__. -/
def PLATE_ROWS : List String := ["A", "B", "C", "D", "E", "F", "G", "H"]

/-- COLUMNS of Plate.__post_init__. -/
def PLATE_COLUMNS : List Nat := [1, 2, 3, 4, 5, 6, 7, 8, 9, 10, 11, 12]

/-- Embeds Plate.__post_init__: the dict of 96 wells keyed "A1".."H12", each with
volume 0, assembled row-major as the nested loops do. -/
def plate_init_wells : List (String × Well) :=
  PLATE_ROWS.flatMap fun r => PLATE_COLUMNS.map fun c => (r ++ toString c, ⟨r, c, 0⟩)

/-- Embeds Plate.get_well: a dict lookup at well_id.upper(); a key absent from the
dict raises KeyError in Python, modelled as none. -/
def get_well (wells : List (String × Well)) (well_id : String) : Option Well :=
  wells.lookup (pyUpper well_id)

/-- C6 counterexample: the implemented normalization is uppercasing only, so
normalize("b02") yields "B02", not the claimed "B2"; concretely, Plate.get_well
on "b02" raises KeyError (the dict has no key "B02") even though well B2 exists. -/
theorem c6_counterexample :
    pyUpper "b02" = "B02" ∧ "B02" ≠ "B2" ∧
    get_well plate_init_wells "b02" = none ∧
    (plate_init_wells.lookup "B2").isSome = true := by decide

/-- C6 (amended): well-id normalization as implemented is uppercasing only; it is
idempotent and case invariant (normalize("a1") = "A1", normalize("H12") = "H12"),
but zero padding is preserved: normalize("b02") = "B02". Plate well lookups are
invariant under it. -/
theorem c6_normalization_upper_only :
    (∀ s, pyUpper (pyUpper s) = pyUpper s) ∧
    pyUpper "a1" = "A1" ∧ pyUpper "H12" = "H12" ∧ pyUpper "b02" = "B02" ∧
    (∀ wells well_id, get_well wells well_id = get_well wells (pyUpper well_id)) := by
  refine ⟨pyUpper_idem, by decide, by decide, by decide, fun wells well_id => ?_⟩
  unfold get_well
  rw [pyUpper_idem]

/-! ## Tip lifecycle and transfer loop (Flex run, lines 228-260) -/

/-- Observable actions the run issues, in order: ctx.pause for a refill,
pipette.pick_up_tip, pipette.transfer of one row carrying its new_tip argument,
and pipette.drop_tip. -/
inductive Ev where
  | pause : Ev
  | pick_up_tip : Ev
  | transfer_call : Transfer → String → Ev
  | drop_tip : Ev
deriving DecidableEq

/-- Run-scoped pipette state: the tip_count closure variable, the pipette's
has_tip flag, and the actions issued so far. -/
structure PipetteState where
  tip_count : Nat
  has_tip : Bool
  events : List Ev
deriving DecidableEq

/-- Embeds the nested pick_up closure (Flex lines 231-238): when tip_count equals
tip_max the run pauses for a refill, resets the tipracks and zeroes the counter;
it then picks up a tip and increments the counter. -/
def pick_up (tip_max : Nat) (s : PipetteState) : PipetteState :=
  let s1 := if s.tip_count = tip_max then
      { s with tip_count := 0, events := s.events ++ [Ev.pause] }
    else s
  { s1 with
    tip_count := s1.tip_count + 1
    has_tip := true
    events := s1.events ++ [Ev.pick_up_tip] }

/-- Embeds pipette.drop_tip(): releases the held tip; the tip counter is never
touched by this call. -/
def drop_tip (s : PipetteState) : PipetteState :=
  { s with has_tip := false, events := s.events ++ [Ev.drop_tip] }

/-- Embeds pipette.transfer(volume, source, destination, new_tip=...): issues the
transfer with the given new_tip argument; tip handling is externally owned. -/
def transfer_action (t : Transfer) (new_tip : String) (s : PipetteState) : PipetteState :=
  { s with events := s.events ++ [Ev.transfer_call t new_tip] }

/-- Initial pipette state of a run: tip_count = 0, no tip held, no actions yet. -/
def init_pipette : PipetteState := { tip_count := 0, has_tip := false, events := [] }

/-- Body of the per-row loop of run (Flex lines 243-258): under reuse always a
pick_up precedes and a drop_tip follows the row's transfer; the transfer always
passes new_tip="never". -/
def loop_body (tip_reuse : String) (tip_max : Nat) (s : PipetteState) (t : Transfer) :
    PipetteState :=
  let sa := if tip_reuse = "always" then pick_up tip_max s else s
  let sb := transfer_action t "never" sa
  if tip_reuse = "always" then drop_tip sb else sb

/-- Embeds the tip-reuse portion of run (Flex lines 240-260): one up-front
pick_up under reuse never; the per-row loop in table order; finally a still-held
tip is dropped. -/
def run_transfer_loop (tip_reuse : String) (tip_max : Nat) (transfers : List Transfer) :
    PipetteState :=
  let s1 := if tip_reuse = "never" then pick_up tip_max init_pipette else init_pipette
  let s2 := transfers.foldl (loop_body tip_reuse tip_max) s1
  if s2.has_tip then drop_tip s2 else s2

/-- C2: with capacity tip_max = 2 and the counter starting at 0, three
consecutive pick_up calls issue pick, pick, pause, pick: the first two acquire
without pausing, the third pauses exactly once (resetting the counter) before
acquiring; in total 3 tips are acquired, 1 pause occurs, and the counter ends
at 1. -/
theorem c2_three_pickups_capacity_two :
    (pick_up 2 (pick_up 2 (pick_up 2 init_pipette))).events
      = [Ev.pick_up_tip, Ev.pick_up_tip, Ev.pause, Ev.pick_up_tip] ∧
    (pick_up 2 (pick_up 2 (pick_up 2 init_pipette))).events.count Ev.pause = 1 ∧
    (pick_up 2 (pick_up 2 (pick_up 2 init_pipette))).events.count Ev.pick_up_tip = 3 ∧
    (pick_up 2 (pick_up 2 (pick_up 2 init_pipette))).tip_count = 1 := by
  decide

/-- One tip-lifecycle operation the run can issue: a pick_up() call or a
drop_tip() call. -/
inductive TipOp where
  | pick : TipOp
  | drop : TipOp

/-- Dispatches one tip operation on the pipette state. -/
def tip_op_step (tip_max : Nat) (s : PipetteState) : TipOp → PipetteState
  | TipOp.pick => pick_up tip_max s
  | TipOp.drop => drop_tip s

/-- Any sequence of pick_up/drop_tip operations from the run's initial state
(tip_count = 0). -/
def run_tip_ops (tip_max : Nat) (ops : List TipOp) : PipetteState :=
  ops.foldl (tip_op_step tip_max) init_pipette

lemma pick_up_tip_count (tip_max : Nat) (s : PipetteState) :
    (pick_up tip_max s).tip_count =
      if s.tip_count = tip_max then 1 else s.tip_count + 1 := by
  unfold pick_up
  by_cases hc : s.tip_count = tip_max <;> simp [hc]

lemma tip_count_le_foldl (tip_max : Nat) (h : 1 ≤ tip_max) (ops : List TipOp)
    (s : PipetteState) (hs : s.tip_count ≤ tip_max) :
    (ops.foldl (tip_op_step tip_max) s).tip_count ≤ tip_max := by
  induction ops generalizing s with
  | nil => simpa using hs
  | cons op ops ih =>
    rw [List.foldl_cons]
    apply ih
    cases op with
    | pick =>
      show (pick_up tip_max s).tip_count ≤ tip_max
      rw [pick_up_tip_count]
      by_cases hc : s.tip_count = tip_max
      · rw [if_pos hc]; omega
      · rw [if_neg hc]; omega
    | drop => simpa [tip_op_step, drop_tip] using hs

/-- C3: for any sequence of pick_up/drop_tip operations starting from
tip_count = 0 with tip_max at least 1, tip_count stays between 0 and tip_max
(lower bound trivial over Nat); pick_up moves the counter by a unit increment
except exactly at tip_count = tip_max, where it pauses, resets to 0 and then
increments to 1; and drop_tip never changes the counter. -/
theorem c3_tip_count_invariant (tip_max : Nat) (h : 1 ≤ tip_max) :
    (∀ ops : List TipOp, (run_tip_ops tip_max ops).tip_count ≤ tip_max) ∧
    (∀ s : PipetteState, (drop_tip s).tip_count = s.tip_count) ∧
    (∀ s : PipetteState,
      (pick_up tip_max s).tip_count =
        if s.tip_count = tip_max then 1 else s.tip_count + 1) ∧
    (∀ s : PipetteState, s.tip_count = tip_max →
      (pick_up tip_max s).events = s.events ++ [Ev.pause, Ev.pick_up_tip]) := by
  refine ⟨fun ops => ?_, fun s => rfl, pick_up_tip_count tip_max, fun s hs => ?_⟩
  · exact tip_count_le_foldl tip_max h ops init_pipette (Nat.zero_le _)
  · unfold pick_up
    rw [if_pos hs]
    simp

/-- Witness for C3 at tip_max = 1: two pick_up calls and a drop_tip keep the
counter at most 1, and a pick_up at a full counter pauses before acquiring. -/
theorem c3_tip_count_invariant_witness :
    (run_tip_ops 1 [TipOp.pick, TipOp.pick, TipOp.drop]).tip_count ≤ 1 ∧
    (pick_up 1 { tip_count := 1, has_tip := true, events := [] }).events
      = [] ++ [Ev.pause, Ev.pick_up_tip] := by
  have h := c3_tip_count_invariant 1 (by decide)
  exact ⟨h.1 _, h.2.2.2 _ rfl⟩

/-- Predicate keeping the pick/transfer/drop actions and discarding pauses. -/
def not_pause : Ev → Bool
  | Ev.pause => false
  | _ => true

lemma pick_up_filter (m : Nat) (s : PipetteState) :
    (pick_up m s).events.filter not_pause
      = s.events.filter not_pause ++ [Ev.pick_up_tip] := by
  unfold pick_up
  by_cases hc : s.tip_count = m <;>
    simp [hc, List.filter_append, not_pause]

lemma pick_up_has_tip (m : Nat) (s : PipetteState) : (pick_up m s).has_tip = true := by
  unfold pick_up
  by_cases hc : s.tip_count = m <;> simp [hc]

lemma foldl_never_body (ts : List Transfer) (s : PipetteState) :
    ts.foldl (fun s t => transfer_action t "never" s) s
      = { s with events := s.events ++ ts.map (fun t => Ev.transfer_call t "never") } := by
  induction ts generalizing s with
  | nil => simp
  | cons t ts ih =>
    rw [List.foldl_cons, ih]
    simp [transfer_action]

lemma foldl_always_filter (m : Nat) (ts : List Transfer) (s : PipetteState) :
    (ts.foldl (fun s t => drop_tip (transfer_action t "never" (pick_up m s))) s).events.filter
        not_pause
      = s.events.filter not_pause
        ++ ts.flatMap (fun t => [Ev.pick_up_tip, Ev.transfer_call t "never", Ev.drop_tip]) := by
  induction ts generalizing s with
  | nil => simp
  | cons t ts ih =>
    rw [List.foldl_cons, ih]
    have hstep :
        (drop_tip (transfer_action t "never" (pick_up m s))).events.filter not_pause
          = s.events.filter not_pause
            ++ [Ev.pick_up_tip, Ev.transfer_call t "never", Ev.drop_tip] := by
      simp only [drop_tip, transfer_action, List.filter_append, pick_up_filter,
        List.append_assoc]
      simp [not_pause, pick_up_filter]
    rw [hstep]
    simp

lemma foldl_always_has_tip (m : Nat) (ts : List Transfer) (s : PipetteState) :
    (ts.foldl (fun s t => drop_tip (transfer_action t "never" (pick_up m s))) s).has_tip
      = if ts.isEmpty then s.has_tip else false := by
  induction ts generalizing s with
  | nil => simp
  | cons t ts ih =>
    rw [List.foldl_cons, ih]
    by_cases hts : ts.isEmpty <;> simp [hts, drop_tip, transfer_action]

lemma loop_body_never (m : Nat) :
    loop_body "never" m = fun s t => transfer_action t "never" s := by
  funext s t
  simp [loop_body]

lemma loop_body_always (m : Nat) :
    loop_body "always" m = fun s t => drop_tip (transfer_action t "never" (pick_up m s)) := by
  funext s t
  simp [loop_body]

lemma filter_not_pause_transfer_map (ts : List Transfer) :
    (ts.map fun t => Ev.transfer_call t "never").filter not_pause
      = ts.map fun t => Ev.transfer_call t "never" := by
  induction ts with
  | nil => rfl
  | cons t ts ih => simp [not_pause, ih]

lemma mem_events_pick_up (m : Nat) (s : PipetteState) (e : Ev)
    (he : e ∈ (pick_up m s).events) :
    e ∈ s.events ∨ e = Ev.pause ∨ e = Ev.pick_up_tip := by
  unfold pick_up at he
  by_cases hc : s.tip_count = m
  · simp [hc] at he
    tauto
  · simp [hc] at he
    tauto

lemma mem_events_loop_body (r : String) (m : Nat) (s : PipetteState) (t0 : Transfer) (e : Ev)
    (he : e ∈ (loop_body r m s t0).events) :
    e ∈ s.events ∨ e = Ev.pause ∨ e = Ev.pick_up_tip ∨
      e = Ev.transfer_call t0 "never" ∨ e = Ev.drop_tip := by
  by_cases hr : r = "always"
  · subst hr
    rw [loop_body_always] at he
    simp only [drop_tip, transfer_action, List.mem_append, List.mem_singleton] at he
    rcases he with (he | he) | he
    · rcases mem_events_pick_up m s e he with h | h | h <;> tauto
    · tauto
    · tauto
  · simp only [loop_body] at he
    rw [if_neg hr, if_neg hr] at he
    simp only [transfer_action, List.mem_append, List.mem_singleton] at he
    rcases he with he | he <;> tauto

lemma transfer_call_never_foldl (r : String) (m : Nat) (ts : List Transfer) (s : PipetteState)
    (hs : ∀ t nt, Ev.transfer_call t nt ∈ s.events → nt = "never") :
    ∀ t nt, Ev.transfer_call t nt ∈ (ts.foldl (loop_body r m) s).events → nt = "never" := by
  induction ts generalizing s with
  | nil => simpa using hs
  | cons t0 ts ih =>
    rw [List.foldl_cons]
    apply ih
    intro t nt hmem
    rcases mem_events_loop_body r m s t0 _ hmem with h | h | h | h | h
    all_goals first
      | exact hs t nt h
      | injection h

/-- C5: the reuse policy fixes the pick/transfer/drop trace exactly. Under
reuse never, the pause-free trace is one pick_up_tip before the rows, the rows'
transfers in table order, and one final drop_tip of the still-held tip — for
every row count including zero. Under reuse always, each row contributes the
consecutive steps pick_up_tip, transfer, drop_tip, in table order, and no other
action occurs. Under any policy, every transfer carries the explicit
new_tip="never" argument. -/
theorem c5_reuse_policy_trace (m : Nat) (ts : List Transfer) :
    (run_transfer_loop "never" m ts).events.filter not_pause
      = Ev.pick_up_tip :: ((ts.map fun t => Ev.transfer_call t "never") ++ [Ev.drop_tip]) ∧
    (run_transfer_loop "always" m ts).events.filter not_pause
      = ts.flatMap (fun t => [Ev.pick_up_tip, Ev.transfer_call t "never", Ev.drop_tip]) ∧
    (∀ r t nt, Ev.transfer_call t nt ∈ (run_transfer_loop r m ts).events → nt = "never") := by
  refine ⟨?_, ?_, ?_⟩
  · simp only [run_transfer_loop]
    rw [if_pos trivial, loop_body_never, foldl_never_body]
    have hht : ({ pick_up m init_pipette with
        events := (pick_up m init_pipette).events
          ++ ts.map fun t => Ev.transfer_call t "never" } : PipetteState).has_tip = true := by
      simpa using pick_up_has_tip m init_pipette
    rw [if_pos hht]
    simp only [drop_tip, List.filter_append, pick_up_filter,
      filter_not_pause_transfer_map, init_pipette]
    simp [not_pause]
  · simp only [run_transfer_loop]
    rw [if_neg (by decide : ¬ ("always" : String) = "never"), loop_body_always]
    have hht : (ts.foldl (fun s t => drop_tip (transfer_action t "never" (pick_up m s)))
        init_pipette).has_tip = false := by
      rw [foldl_always_has_tip]
      by_cases hts : ts.isEmpty <;> simp [hts, init_pipette]
    rw [if_neg (by simp [hht])]
    rw [foldl_always_filter]
    simp [init_pipette]
  · intro r t nt hmem
    simp only [run_transfer_loop] at hmem
    have hbase : ∀ t nt,
        Ev.transfer_call t nt ∈
          (if r = "never" then pick_up m init_pipette else init_pipette).events → nt = "never" := by
      intro t nt h
      by_cases hr : r = "never"
      · rw [if_pos hr] at h
        rcases mem_events_pick_up m init_pipette _ h with h2 | h2 | h2
        · simp [init_pipette] at h2
        · cases h2
        · cases h2
      · rw [if_neg hr] at h
        simp [init_pipette] at h
    set s2 := ts.foldl (loop_body r m)
      (if r = "never" then pick_up m init_pipette else init_pipette) with hs2
    by_cases hht : s2.has_tip
    · rw [if_pos hht] at hmem
      simp only [drop_tip, List.mem_append, List.mem_singleton] at hmem
      rcases hmem with hmem | hmem
      · exact transfer_call_never_foldl r m ts _ hbase t nt hmem
      · cases hmem
    · rw [if_neg hht] at hmem
      exact transfer_call_never_foldl r m ts _ hbase t nt hmem

/-- Witness for C5 at a concrete run: under reuse never with one row the
pause-free trace is pick, transfer, drop, and the transfer in an always-run of
the same row carries new_tip="never". -/
theorem c5_reuse_policy_trace_witness :
    (run_transfer_loop "never" 96
        [⟨"p", "B1", "A1", 1, "q", "C1", "A2", 5⟩]).events.filter not_pause
      = Ev.pick_up_tip ::
          (([⟨"p", "B1", "A1", 1, "q", "C1", "A2", 5⟩].map
            fun t => Ev.transfer_call t "never") ++ [Ev.drop_tip]) := by
  exact (c5_reuse_policy_trace 96 [⟨"p", "B1", "A1", 1, "q", "C1", "A2", 5⟩]).1

/-- Single-row transfer used as the concrete failing input for C8. -/
def c8_transfer : Transfer :=
  { source_labware := "src_plate"
    source_slot := "B1"
    source_well := "A1"
    source_height_above_bottom_mm := 1
    destination_labware := "dst_plate"
    destination_slot := "C1"
    destination_well := "A1"
    volume_ul := 50 }

/-- C8 (evidence for the code bug): the run never checks for zero consumable
capacity. With tip_max = 0 (no tiprack slot free) and one row under reuse
always, the code pauses for a refill, picks up a tip and executes the transfer
instead of rejecting the run before any transfer attempt. -/
theorem c8_zero_capacity_not_rejected :
    (run_transfer_loop "always" 0 [c8_transfer]).events
      = [Ev.pause, Ev.pick_up_tip, Ev.transfer_call c8_transfer "never", Ev.drop_tip] := by
  decide

/-! ## Liquid destination registry (OT2_LiquidExample.py) -/

/-- Dataclass LiquidDestination: a labware/slot location, the set of wells the
liquid occupies there, display data, and a volume. -/
structure LiquidDestination where
  labware_load_name : String
  slot : String
  wells : Finset String
  name : String
  description : String
  display_color : String
  volume : ℚ
deriving DecidableEq

/-- Embeds the key property: the f-string "{labware_load_name}_{slot}". -/
def LiquidDestination.key (d : LiquidDestination) : String :=
  d.labware_load_name ++ "_" ++ d.slot

/-- Content of the ValueError raised by add_destination: the overlapping wells
and the new destination's labware and slot, exactly the data interpolated into
the message. -/
structure ConflictErr where
  overlapping_wells : Finset String
  labware_load_name : String
  slot : String
deriving DecidableEq

/-- Embeds LiquidDestinations.add_destination (OT2_LiquidExample.py lines 40-56):
collect the previously added destinations with the same key in registration
order, raise on the first whose well set intersects the new one (naming the
intersection and the new destination's labware and slot), otherwise append. The
Python method mutates self.destinations and raises before the append; here it
returns the resulting list together with the optional error. -/
def add_destination (destinations : List LiquidDestination) (destination : LiquidDestination) :
    List LiquidDestination × Option ConflictErr :=
  let liquids_in_same_slot := destinations.filter fun d => d.key = destination.key
  match liquids_in_same_slot.find? (fun liquid => liquid.wells ∩ destination.wells ≠ ∅) with
  | some liquid =>
    (destinations,
      some ⟨liquid.wells ∩ destination.wells, destination.labware_load_name, destination.slot⟩)
  | none => (destinations ++ [destination], none)

/-- Embeds LiquidDestinations.get_destinations: returns the registered list. -/
def get_destinations (destinations : List LiquidDestination) : List LiquidDestination :=
  destinations

/-- Destination A of the spec scenario: resource X, slot 1, wells {A1, B1}. -/
def dest_A : LiquidDestination :=
  { labware_load_name := "X"
    slot := "1"
    wells := {"A1", "B1"}
    name := "A"
    description := ""
    display_color := ""
    volume := 1 }

/-- Destination B of the spec scenario: resource X, slot 1, wells {B1, C1}. -/
def dest_B : LiquidDestination :=
  { labware_load_name := "X"
    slot := "1"
    wells := {"B1", "C1"}
    name := "B"
    description := ""
    display_color := ""
    volume := 1 }

/-- Destination C of the spec scenario: resource X, slot 1, wells {C1, D1}. -/
def dest_C : LiquidDestination :=
  { labware_load_name := "X"
    slot := "1"
    wells := {"C1", "D1"}
    name := "C"
    description := ""
    display_color := ""
    volume := 1 }

/-- Registered destination whose name contains an underscore: labware "x_1" in
slot "1". Its string key "x_1_1" collides with dest_amb2's. -/
def dest_amb1 : LiquidDestination :=
  { labware_load_name := "x_1"
    slot := "1"
    wells := {"A1"}
    name := "amb1"
    description := ""
    display_color := ""
    volume := 1 }

/-- New destination with labware "x" in slot "1_1": a different (labware, slot)
pair than dest_amb1, but the same string key "x_1_1". -/
def dest_amb2 : LiquidDestination :=
  { labware_load_name := "x"
    slot := "1_1"
    wells := {"A1"}
    name := "amb2"
    description := ""
    display_color := ""
    volume := 1 }

/-- C4 counterexample: the registry key is the concatenated string
labware_load_name + "_" + slot, not the (labware_load_name, slot) pair, and
underscores make the encoding ambiguous: registering labware "x_1" at slot "1"
and then labware "x" at slot "1_1" with intersecting wells raises the conflict
error even though no previously registered destination shares the (labware,
slot) pair — refuting the claimed characterization. -/
theorem c4_counterexample :
    (add_destination [dest_amb1] dest_amb2).2.isSome = true ∧
    ¬(dest_amb1.labware_load_name = dest_amb2.labware_load_name ∧
      dest_amb1.slot = dest_amb2.slot) := by
  decide

/-- Invariant of the registry: no two registered destinations with equal string
key have intersecting well sets. -/
def pairwise_ok (ds : List LiquidDestination) : Prop :=
  ds.Pairwise fun p q => p.key = q.key → p.wells ∩ q.wells = ∅

lemma add_destination_eq_found (ds : List LiquidDestination) (d liquid : LiquidDestination)
    (hfind : (ds.filter fun p => p.key = d.key).find?
      (fun liquid => liquid.wells ∩ d.wells ≠ ∅) = some liquid) :
    add_destination ds d
      = (ds, some ⟨liquid.wells ∩ d.wells, d.labware_load_name, d.slot⟩) := by
  simp only [add_destination]
  rw [hfind]

lemma add_destination_eq_clear (ds : List LiquidDestination) (d : LiquidDestination)
    (hfind : (ds.filter fun p => p.key = d.key).find?
      (fun liquid => liquid.wells ∩ d.wells ≠ ∅) = none) :
    add_destination ds d = (ds ++ [d], none) := by
  simp only [add_destination]
  rw [hfind]

lemma add_destination_isSome_iff (ds : List LiquidDestination) (d : LiquidDestination) :
    (add_destination ds d).2.isSome = true ↔
      ∃ p ∈ ds, p.key = d.key ∧ p.wells ∩ d.wells ≠ ∅ := by
  cases hfind : (ds.filter fun p => p.key = d.key).find?
      (fun liquid => liquid.wells ∩ d.wells ≠ ∅) with
  | some liquid =>
    rw [add_destination_eq_found ds d liquid hfind]
    simp only [Option.isSome_some, true_iff]
    have hmem := List.mem_of_find?_eq_some hfind
    have hpred := List.find?_some hfind
    rw [List.mem_filter] at hmem
    refine ⟨liquid, hmem.1, ?_, ?_⟩
    · simpa using hmem.2
    · simpa using hpred
  | none =>
    rw [add_destination_eq_clear ds d hfind]
    simp only [Option.isSome_none, Bool.false_eq_true, false_iff]
    rintro ⟨p, hp, hkey, hne⟩
    rw [List.find?_eq_none] at hfind
    have hpf : p ∈ ds.filter fun q => q.key = d.key := by
      rw [List.mem_filter]
      exact ⟨hp, by simpa using hkey⟩
    exact absurd (by simpa using hne) (by simpa using hfind p hpf)

/-- C4 (amended): add_destination raises exactly when some previously registered
destination has the same string key labware_load_name + "_" + slot and an
intersecting well set; the raised error carries the first such intersection and
the new destination's labware and slot. On the spec scenario, registering B
after A raises naming {B1}, and registering C after A succeeds. Successful
registrations preserve the invariant that no two registered destinations with
equal key intersect. -/
theorem c4_add_destination_conflict :
    (∀ ds d, (add_destination ds d).2.isSome = true ↔
        ∃ p ∈ ds, p.key = d.key ∧ p.wells ∩ d.wells ≠ ∅) ∧
    (∀ ds d e, (add_destination ds d).2 = some e →
        e.labware_load_name = d.labware_load_name ∧ e.slot = d.slot ∧
          ∃ p ∈ ds, p.key = d.key ∧ e.overlapping_wells = p.wells ∩ d.wells ∧
            e.overlapping_wells ≠ ∅) ∧
    (add_destination [dest_A] dest_B).2 = some ⟨{"B1"}, "X", "1"⟩ ∧
    add_destination [dest_A] dest_C = ([dest_A, dest_C], none) ∧
    (∀ ds d, pairwise_ok ds → (add_destination ds d).2 = none →
        pairwise_ok (add_destination ds d).1) := by
  refine ⟨add_destination_isSome_iff, ?_, by decide, by decide, ?_⟩
  · intro ds d e he
    cases hfind : (ds.filter fun p => p.key = d.key).find?
        (fun liquid => liquid.wells ∩ d.wells ≠ ∅) with
    | some liquid =>
      rw [add_destination_eq_found ds d liquid hfind] at he
      simp only [Option.some_inj] at he
      subst he
      have hmem := List.mem_of_find?_eq_some hfind
      have hpred := List.find?_some hfind
      rw [List.mem_filter] at hmem
      exact ⟨rfl, rfl, liquid, hmem.1, by simpa using hmem.2, rfl, by simpa using hpred⟩
    | none =>
      rw [add_destination_eq_clear ds d hfind] at he
      cases he
  · intro ds d hok hnone
    cases hfind : (ds.filter fun p => p.key = d.key).find?
        (fun liquid => liquid.wells ∩ d.wells ≠ ∅) with
    | some liquid =>
      rw [add_destination_eq_found ds d liquid hfind] at hnone
      cases hnone
    | none =>
      rw [add_destination_eq_clear ds d hfind]
      rw [List.find?_eq_none] at hfind
      unfold pairwise_ok
      rw [List.pairwise_append]
      refine ⟨hok, List.pairwise_singleton _ _, ?_⟩
      intro a ha b hb
      rw [List.mem_singleton] at hb
      intro hkey
      rw [hb] at hkey ⊢
      by_contra hne
      have haf : a ∈ ds.filter fun q => q.key = d.key := by
        rw [List.mem_filter]
        exact ⟨ha, by simpa using hkey⟩
      exact absurd (by simpa using hne) (by simpa using hfind a haf)

/-- Witness for C4's amended theorem: on the spec scenario the conflict
predicate of the first conjunct holds concretely for registering B after A. -/
theorem c4_add_destination_conflict_witness :
    (add_destination [dest_A] dest_B).2.isSome = true := by
  exact (c4_add_destination_conflict.1 [dest_A] dest_B).mpr
    ⟨dest_A, by decide, by decide, by decide⟩

/-- C9: registration is atomic on error: when add_destination raises, the
registry list is returned unchanged, so get_destinations yields exactly the
destinations registered before the failing call in their original order; a
successful call appends the new destination at the end. -/
theorem c9_add_destination_atomic :
    (∀ ds d e, (add_destination ds d).2 = some e →
        get_destinations (add_destination ds d).1 = ds) ∧
    (∀ ds d, (add_destination ds d).2 = none →
        (add_destination ds d).1 = ds ++ [d]) := by
  constructor
  · intro ds d e he
    cases hfind : (ds.filter fun p => p.key = d.key).find?
        (fun liquid => liquid.wells ∩ d.wells ≠ ∅) with
    | some liquid => rw [add_destination_eq_found ds d liquid hfind]; rfl
    | none =>
      rw [add_destination_eq_clear ds d hfind] at he
      cases he
  · intro ds d hnone
    cases hfind : (ds.filter fun p => p.key = d.key).find?
        (fun liquid => liquid.wells ∩ d.wells ≠ ∅) with
    | some liquid =>
      rw [add_destination_eq_found ds d liquid hfind] at hnone
      cases hnone
    | none => rw [add_destination_eq_clear ds d hfind]

/-- Witness for C9: the conflicting registration of B after A leaves the
registry at exactly [A]. -/
theorem c9_add_destination_atomic_witness :
    get_destinations (add_destination [dest_A] dest_B).1 = [dest_A] := by
  exact c9_add_destination_atomic.1 [dest_A] dest_B
    ⟨{"B1"}, "X", "1"⟩ (by decide)

/-- Model of Python s.split(sep) with the explicit one-character separator ";"
used for well lists: splits on every occurrence, keeping empty pieces. -/
def py_split (s : String) (delim : Char) : List String :=
  (s.data.splitOn delim).map String.mk

/-- The expected_headers set of parse_list_of_lists. -/
def expected_headers : Finset String :=
  {"labware_load_name", "slot", "wells", "name", "description", "display_color", "volume"}

/-- Model of Python dict(zip(headers, row))[k]: pairs are zipped (truncating to
the shorter list), later duplicate keys override earlier ones, and a missing key
raises KeyError, modelled as none. -/
def dict_zip_get (headers row : List String) (k : String) : Option String :=
  (headers.zip row).foldl (fun acc p => if p.1 = k then some p.2 else acc) none

/-- Errors parse_list_of_lists can raise, each carrying the data interpolated
into the corresponding Python message: too few rows, the unexpected/missing
header sets, a short row (1-based index and content), a row with a blank field
(1-based index and content), an uncoercible volume string, a dict KeyError, or
a registration conflict. -/
inductive LiquidParseError where
  | data_shape : LiquidParseError
  | header_mismatch : Finset String → Finset String → LiquidParseError
  | missing_fields : Nat → List String → LiquidParseError
  | empty_fields : Nat → List String → LiquidParseError
  | invalid_volume : String → LiquidParseError
  | key_error : String → LiquidParseError
  | conflict : ConflictErr → LiquidParseError
deriving DecidableEq

/-- Embeds the per-row work of parse_list_of_lists (OT2_LiquidExample.py lines
101-134): field-count check, blank-field check, the wells lookup and split, the
volume lookup and float coercion, then the remaining constructor lookups, in
Python evaluation order. -/
def parse_row (headers row : List String) (index : Nat) :
    Except LiquidParseError LiquidDestination :=
  if row.length ≠ expected_headers.card then Except.error (.missing_fields index row)
  else if row.any isBlank then Except.error (.empty_fields index row)
  else
    match dict_zip_get headers row "wells" with
    | none => Except.error (.key_error "wells")
    | some wells_str =>
      let wells := (py_split wells_str ';').toFinset
      match dict_zip_get headers row "volume" with
      | none => Except.error (.key_error "volume")
      | some volume_str =>
        match parsePyFloat volume_str with
        | none => Except.error (.invalid_volume volume_str)
        | some volume =>
          match dict_zip_get headers row "labware_load_name" with
          | none => Except.error (.key_error "labware_load_name")
          | some lln =>
            match dict_zip_get headers row "slot" with
            | none => Except.error (.key_error "slot")
            | some slot =>
              match dict_zip_get headers row "name" with
              | none => Except.error (.key_error "name")
              | some nm =>
                match dict_zip_get headers row "description" with
                | none => Except.error (.key_error "description")
                | some desc =>
                  match dict_zip_get headers row "display_color" with
                  | none => Except.error (.key_error "display_color")
                  | some color => Except.ok ⟨lln, slot, wells, nm, desc, color, volume⟩

/-- Embeds the row loop of parse_list_of_lists: rows are processed in order with
1-based indices; each parsed destination goes through add_destination, and the
first error aborts with the registry in its state at that point. -/
def parse_rows (headers : List String) :
    List (List String) → Nat → List LiquidDestination →
      List LiquidDestination × Option LiquidParseError
  | [], _, acc => (acc, none)
  | row :: rest, index, acc =>
    match parse_row headers row index with
    | Except.error e => (acc, some e)
    | Except.ok d =>
      let r := add_destination acc d
      match r.2 with
      | some e => (r.1, some (LiquidParseError.conflict e))
      | none => parse_rows headers rest (index + 1) r.1

/-- Embeds LiquidDestinations.parse_list_of_lists (OT2_LiquidExample.py lines
61-134): any input with fewer than two rows is rejected up front with the
data-shape error before headers or rows are examined; then the header set is
compared against expected_headers (unexpected and missing reported together);
then the data rows are processed in order. -/
def parse_list_of_lists (data : List (List String)) :
    List LiquidDestination × Option LiquidParseError :=
  match data with
  | headers :: row1 :: rest =>
    let unexpected := headers.toFinset \ expected_headers
    let missing := expected_headers \ headers.toFinset
    if unexpected ≠ ∅ ∨ missing ≠ ∅ then
      ([], some (LiquidParseError.header_mismatch unexpected missing))
    else parse_rows headers (row1 :: rest) 1 []
  | _ => ([], some LiquidParseError.data_shape)

lemma parse_list_of_lists_short (data : List (List String)) (h : data.length < 2) :
    parse_list_of_lists data = ([], some LiquidParseError.data_shape) := by
  match data with
  | [] => rfl
  | [x] => rfl
  | a :: b :: rest => exact absurd h (by simp)

/-- C10: parse_list_of_lists rejects every input with fewer than two rows — the
empty table and a header-only table included — with the data-shape error and an
untouched registry, before any header or row validation runs; consequently a
table is accepted (no error) only when it has at least one data row. -/
theorem c10_requires_data_row :
    (∀ data : List (List String), data.length < 2 →
        parse_list_of_lists data = ([], some LiquidParseError.data_shape)) ∧
    (∀ data : List (List String), (parse_list_of_lists data).2 = none → 2 ≤ data.length) := by
  refine ⟨parse_list_of_lists_short, fun data h => ?_⟩
  by_contra hlt
  rw [Nat.not_le] at hlt
  rw [parse_list_of_lists_short data hlt] at h
  cases h

/-- Witness for C10: the empty table and a header-only table are both rejected
with the data-shape error. -/
theorem c10_requires_data_row_witness :
    parse_list_of_lists [] = ([], some LiquidParseError.data_shape) ∧
    parse_list_of_lists
        [["labware_load_name", "slot", "wells", "name", "description", "display_color",
          "volume"]]
      = ([], some LiquidParseError.data_shape) := by
  exact ⟨c10_requires_data_row.1 [] (by decide),
    c10_requires_data_row.1 [_] (by decide)⟩

/-! ## Flex table validation (Flex_Cherrypicking_Every_Run_Parameters.py) -/

/-- Errors validate_data_rows raises, carrying the data its messages
interpolate: the 1-based row index and the row content — for a short row and
for a row with an empty or whitespace-only field respectively. Neither message
identifies which field within the row is at fault. -/
inductive RowError where
  | missing_fields : Nat → List String → RowError
  | empty_fields : Nat → List String → RowError
deriving DecidableEq

/-- One iteration of validate_data_rows (Flex lines 92-100): the field-count
check precedes the blank-field scan; the first violation is raised. -/
def validate_row (index : Nat) (row : List String) : Option RowError :=
  if row.length ≠ HEADERS.length then some (RowError.missing_fields index row)
  else if row.any isBlank then some (RowError.empty_fields index row)
  else none

/-- The enumerate(data_rows, start=index) loop of validate_data_rows: rows are
checked in order and the first invalid row aborts the whole table. -/
def validate_data_rows_from (index : Nat) : List (List String) → Option RowError
  | [] => none
  | row :: rest =>
    match validate_row index row with
    | some e => some e
    | none => validate_data_rows_from (index + 1) rest

/-- Embeds validate_data_rows (Flex lines 90-100): indices are 1-based. -/
def validate_data_rows (data_rows : List (List String)) : Option RowError :=
  validate_data_rows_from 1 data_rows

/-- Errors read_transfers_from_list surfaces: the IndexError on an empty table,
the assert failure carrying the actual header row, a row-validation error, or
the ValueError Python float() raises — which carries only the uncoercible
text, naming neither the row nor the field. -/
inductive TableError where
  | empty_data : TableError
  | header_mismatch : List String → TableError
  | row_error : RowError → TableError
  | float_error : String → TableError
deriving DecidableEq

/-- Embeds the Transfer(...) construction of one row (Flex lines 154-163):
fields are read positionally; float() runs on index 3 then index 7, and its
failure carries only the offending string. -/
def to_transfer (row : List String) : Except TableError Transfer :=
  match parsePyFloat (row.getD 3 "") with
  | none => Except.error (TableError.float_error (row.getD 3 ""))
  | some h =>
    match parsePyFloat (row.getD 7 "") with
    | none => Except.error (TableError.float_error (row.getD 7 ""))
    | some v =>
      Except.ok ⟨row.getD 0 "", row.getD 1 "", row.getD 2 "", h,
        row.getD 4 "", row.getD 5 "", row.getD 6 "", v⟩

/-- Embeds read_transfers_from_list (Flex lines 136-165): the header row is
matched strictly in order, the data rows are validated, then mapped to Transfer
records in order with fail-fast float coercion. -/
def read_transfers_from_list (data : List (List String)) :
    Except TableError (List Transfer) :=
  match data with
  | [] => Except.error TableError.empty_data
  | headers :: data_rows =>
    if headers ≠ HEADERS then Except.error (TableError.header_mismatch headers)
    else
      match validate_data_rows data_rows with
      | some e => Except.error (TableError.row_error e)
      | none => data_rows.mapM to_transfer

/-- A data row validate_data_rows accepts: full width and no blank field. -/
def row_ok (row : List String) : Prop :=
  row.length = HEADERS.length ∧ ∀ v ∈ row, isBlank v = false

lemma validate_row_of_ok (index : Nat) (row : List String) (h : row_ok row) :
    validate_row index row = none := by
  unfold validate_row
  rw [if_neg (by simp [h.1])]
  have hb : ¬(row.any isBlank = true) := by
    rw [List.any_eq_true]
    rintro ⟨v, hv, hbv⟩
    rw [h.2 v hv] at hbv
    cases hbv
  rw [if_neg hb]

lemma validate_from_append (pre post : List (List String)) (row : List String) (i : Nat)
    (hpre : ∀ r ∈ pre, row_ok r) :
    validate_data_rows_from i (pre ++ row :: post) =
      match validate_row (i + pre.length) row with
      | some e => some e
      | none => validate_data_rows_from (i + pre.length + 1) post := by
  induction pre generalizing i with
  | nil => rfl
  | cons r pre ih =>
    have hr : row_ok r := hpre r (List.mem_cons_self r pre)
    rw [List.cons_append]
    have hstep : validate_data_rows_from i (r :: (pre ++ row :: post))
        = match validate_row i r with
          | some e => some e
          | none => validate_data_rows_from (i + 1) (pre ++ row :: post) := rfl
    rw [hstep, validate_row_of_ok i r hr]
    show validate_data_rows_from (i + 1) (pre ++ row :: post) = _
    rw [ih (i + 1) (fun q hq => hpre q (List.mem_cons_of_mem r hq))]
    have h1 : i + 1 + pre.length = i + (r :: pre).length := by
      simp [List.length_cons]
      omega
    rw [h1]

/-- Row with every field present and non-blank but a non-numeric volume. -/
def c7_bad_row : List String :=
  ["source_plate", "B1", "A1", "1", "dest_plate", "C1", "A2", "abc"]

/-- C7 counterexample: a type-coercion failure does not name the row or the
field. On a table whose only data row has non-numeric volume "abc", the error
raised is Python float()'s ValueError, which carries only the uncoercible text
— the float_error constructor has no row-index or field argument. -/
theorem c7_counterexample :
    read_transfers_from_list [HEADERS, c7_bad_row]
      = Except.error (TableError.float_error "abc") := by
  rfl

/-- C7 (amended): validation is fail-fast and names the offending row: if every
row before it is valid, a row whose field count differs from the header count
aborts the table with an error naming its 1-based index and content, and a
full-width row with an empty or whitespace-only field aborts with an error
naming its 1-based index and full content (the specific field is not singled
out). A type-coercion failure surfaces only the uncoercible string, naming
neither row nor field. -/
theorem c7_validation_errors :
    (∀ pre post (row : List String), (∀ r ∈ pre, row_ok r) →
        row.length ≠ HEADERS.length →
        validate_data_rows (pre ++ row :: post)
          = some (RowError.missing_fields (pre.length + 1) row)) ∧
    (∀ pre post (row : List String), (∀ r ∈ pre, row_ok r) →
        row.length = HEADERS.length → row.any isBlank = true →
        validate_data_rows (pre ++ row :: post)
          = some (RowError.empty_fields (pre.length + 1) row)) ∧
    (∀ row e, to_transfer row = Except.error e →
        ∃ s, e = TableError.float_error s ∧ parsePyFloat s = none ∧
          (s = row.getD 3 "" ∨ s = row.getD 7 "")) := by
  refine ⟨?_, ?_, ?_⟩
  · intro pre post row hpre hlen
    unfold validate_data_rows
    rw [validate_from_append pre post row 1 hpre]
    unfold validate_row
    rw [if_pos hlen]
    have h1 : 1 + pre.length = pre.length + 1 := Nat.add_comm 1 pre.length
    rw [h1]
  · intro pre post row hpre hlen hblank
    unfold validate_data_rows
    rw [validate_from_append pre post row 1 hpre]
    unfold validate_row
    rw [if_neg (by simp [hlen]), if_pos hblank]
    have h1 : 1 + pre.length = pre.length + 1 := Nat.add_comm 1 pre.length
    rw [h1]
  · intro row e he
    unfold to_transfer at he
    cases h3 : parsePyFloat (row.getD 3 "") with
    | none =>
      rw [h3] at he
      simp only [Except.error.injEq] at he
      exact ⟨row.getD 3 "", he.symm, h3, Or.inl rfl⟩
    | some q3 =>
      rw [h3] at he
      cases h7 : parsePyFloat (row.getD 7 "") with
      | none =>
        rw [h7] at he
        simp only [Except.error.injEq] at he
        exact ⟨row.getD 7 "", he.symm, h7, Or.inr rfl⟩
      | some q7 =>
        rw [h7] at he
        cases he

/-- Witness for C7's amended theorem: a one-field row aborts the table with the
missing-fields error naming index 1 and the row, and to_transfer on the bad
row surfaces exactly the uncoercible string "abc". -/
theorem c7_validation_errors_witness :
    validate_data_rows [["x"]] = some (RowError.missing_fields 1 ["x"]) ∧
    (∃ s, TableError.float_error "abc" = TableError.float_error s ∧
      parsePyFloat s = none ∧
      (s = c7_bad_row.getD 3 "" ∨ s = c7_bad_row.getD 7 "")) := by
  exact ⟨c7_validation_errors.1 [] [] ["x"] (by simp) (by decide),
    c7_validation_errors.2.2 c7_bad_row (TableError.float_error "abc") rfl⟩

end OpentronsParams
